import Mathlib

/-!
Verification development for the wastewater-network graph manager
(`qgepnetwork.py`): a shallow embedding of `QgepFeatureCache` and
`QgepGraphManager` together with proofs about the claims of the
specification.  Machine integers are modelled as `Nat`/`Int`, Python
dictionaries as insertion-ordered association lists (assignment to an
existing key replaces in place, new keys are appended, matching CPython
dict semantics), and raised exceptions as `Except` values.
-/

namespace QgepNetwork

/-- A Python attribute value as stored on a feature record: the QGIS
`NULL` variant, a string, or a number (numbers are modelled as `Int`). -/
inductive PyVal where
  | null
  | str (s : String)
  | num (n : Int)
deriving DecidableEq, Repr

/-- A Python exception, at the granularity the source code distinguishes. -/
inductive PyErr where
  | typeError
  | valueError
  | keyError
  | attributeError
  | unboundLocalError
  | nodeNotFound
  | noPath
deriving DecidableEq, Repr

/-- A feature record: internal feature id (`feat.id()`) and its fields
(`feat[name]`); a missing field raises `KeyError`, modelled by `none`
from the raw lookup below. -/
structure Feature where
  fid : Nat
  fields : List (String × PyVal)
deriving DecidableEq, Repr

/-- `feat[name]`: raw field access; `none` models the `KeyError` case. -/
def fieldRaw (f : Feature) (a : String) : Option PyVal :=
  (f.fields.find? (fun kv => kv.1 == a)).map (fun kv => kv.2)

/-- `QgepFeatureCache.attr`: returns `None` for a `NULL` value, the raw
value otherwise, and logs-and-returns-`None` when the field is unknown
(`KeyError` caught).  The result `none` models Python `None`. -/
def attr (f : Feature) (a : String) : Option PyVal :=
  match fieldRaw f a with
  | none => none
  | some .null => none
  | some v => some v

/-- `QgepFeatureCache.attrAsUnicode`: returns `attr` unchanged. -/
def attrAsUnicode (f : Feature) (a : String) : Option PyVal :=
  attr f a

/-- Digits-only parser used by the model of Python `float(string)`. -/
def digitsToNat : List Char → Option Nat
  | [] => none
  | cs =>
    if cs.all Char.isDigit then
      some (cs.foldl (fun n c => 10 * n + (c.toNat - 48)) 0)
    else none

/-- Model of Python `float(s)` on a string: an optional sign followed by
digits parses to the number, anything else raises `ValueError`. -/
def parseNum (s : String) : Option Int :=
  match s.data with
  | [] => none
  | c :: cs =>
    if c = '-' then (digitsToNat cs).map (fun n => -(n : Int))
    else (digitsToNat (c :: cs)).map (fun n => (n : Int))

/-- Model of Python `float(x)`: numbers convert, strings parse or raise
`ValueError`, `None` (and the QGIS `NULL` variant) raise `TypeError`. -/
def pyFloat : Option PyVal → Except PyErr Int
  | none => .error .typeError
  | some .null => .error .typeError
  | some (.num n) => .ok n
  | some (.str s) =>
    match parseNum s with
    | some n => .ok n
    | none => .error .valueError

/-- `QgepFeatureCache.attrAsFloat`: `float(attr(...))` with only
`TypeError` caught (returning `None`, modelled as `.ok none`). -/
def attrAsFloat (f : Feature) (a : String) : Except PyErr (Option Int) :=
  match pyFloat (attr f a) with
  | .ok n => .ok (some n)
  | .error .typeError => .ok none
  | .error e => .error e

/-- The feature cache: the two dictionaries `_featuresById` and
`_featuresByObjId` plus the configured object-id field name. -/
structure QgepFeatureCache where
  featuresById : List (Nat × Feature)
  featuresByObjId : List (Option PyVal × Feature)
  objIdField : String
deriving DecidableEq, Repr

/-- A fresh cache for a layer (`QgepFeatureCache(layer, obj_id_field)`). -/
def emptyCache (field : String) : QgepFeatureCache :=
  ⟨[], [], field⟩

/-- Python dict assignment `d[k] = v` on the id-keyed dictionary. -/
def insertById (l : List (Nat × Feature)) (k : Nat) (v : Feature) :
    List (Nat × Feature) :=
  if l.any (fun kv => kv.1 == k) then
    l.map (fun kv => if kv.1 == k then (k, v) else kv)
  else l ++ [(k, v)]

/-- Python dict assignment `d[k] = v` on the object-id-keyed dictionary. -/
def insertByObjId (l : List (Option PyVal × Feature)) (k : Option PyVal)
    (v : Feature) : List (Option PyVal × Feature) :=
  if l.any (fun kv => kv.1 == k) then
    l.map (fun kv => if kv.1 == k then (k, v) else kv)
  else l ++ [(k, v)]

/-- `QgepFeatureCache.addFeature`: store under the internal id and under
the object-id attribute. -/
def addFeature (c : QgepFeatureCache) (f : Feature) : QgepFeatureCache :=
  { c with
    featuresById := insertById c.featuresById f.fid f
    featuresByObjId :=
      insertByObjId c.featuresByObjId (attrAsUnicode f c.objIdField) f }

/-- `QgepFeatureCache.asDict`: returns `_featuresById`. -/
def asDict (c : QgepFeatureCache) : List (Nat × Feature) :=
  c.featuresById

/-- `QgepFeatureCache.asObjIdDict`: the source returns `_featuresById`
here as well (line 526 of `qgepnetwork.py`), not `_featuresByObjId`. -/
def asObjIdDict (c : QgepFeatureCache) : List (Nat × Feature) :=
  c.featuresById

/-- Attribute bundle stored on a graph node by `_addVertices`
(`point`, `objType`, `objId`). -/
structure NodeData where
  point : Int × Int
  objType : String
  objId : String
deriving DecidableEq, Repr

/-- Attribute bundle stored on a graph edge by `_addEdges`
(`weight`, `feature`, `baseFeature`, `objType`). -/
structure EdgeData where
  weight : Nat
  feature : Nat
  baseFeature : String
  objType : String
deriving DecidableEq, Repr

/-- A `networkx.DiGraph`: insertion-ordered node and edge dictionaries.
Edges are stored as `(from, to, data)`.  In this codebase every edge
endpoint is a node id previously added by `_addVertices`, so `add_edge`
is modelled as an update of the edge dictionary alone. -/
structure DiGraph where
  nodes : List (Nat × NodeData)
  edges : List (Nat × Nat × EdgeData)
deriving DecidableEq, Repr

/-- `nx.DiGraph()`. -/
def emptyGraph : DiGraph := ⟨[], []⟩

/-- `n in G`. -/
def hasNode (g : DiGraph) (n : Nat) : Bool :=
  g.nodes.any (fun e => e.1 == n)

/-- `G.node[n]`, as an optional lookup. -/
def lookupNode (g : DiGraph) (n : Nat) : Option NodeData :=
  (g.nodes.find? (fun e => e.1 == n)).map (fun e => e.2)

/-- `G.add_node(n, data)`: replace in place or append. -/
def addNode (g : DiGraph) (n : Nat) (d : NodeData) : DiGraph :=
  if g.nodes.any (fun e => e.1 == n) then
    { g with nodes := g.nodes.map (fun e => if e.1 == n then (n, d) else e) }
  else { g with nodes := g.nodes ++ [(n, d)] }

/-- `(u, v) in G.edges`. -/
def hasEdge (g : DiGraph) (u v : Nat) : Bool :=
  g.edges.any (fun e => e.1 == u && e.2.1 == v)

/-- `G[u][v]`, as an optional lookup of the edge attribute dict. -/
def lookupEdge (g : DiGraph) (u v : Nat) : Option EdgeData :=
  (g.edges.find? (fun e => e.1 == u && e.2.1 == v)).map (fun e => e.2.2)

/-- `G.add_edge(u, v, data)`: replace in place or append. -/
def addEdge (g : DiGraph) (u v : Nat) (d : EdgeData) : DiGraph :=
  if g.edges.any (fun e => e.1 == u && e.2.1 == v) then
    { g with edges := g.edges.map (fun e => if e.1 == u && e.2.1 == v then (u, v, d) else e) }
  else { g with edges := g.edges ++ [(u, v, d)] }

/-- `G.reverse()`: same nodes, every edge flipped, data kept. -/
def reverse (g : DiGraph) : DiGraph :=
  ⟨g.nodes, g.edges.map (fun e => (e.2.1, e.1, e.2.2))⟩

/-- `G_succ[v].items()`: successors of `v` with weights, in adjacency
(insertion) order. -/
def succs (g : DiGraph) (v : Nat) : List (Nat × Nat) :=
  g.edges.filterMap
    (fun e => if e.1 == v then some (e.2.1, e.2.2.weight) else none)

/-- `p` is a directed path in `g` that starts at `a`, ends at `b`, and
follows edges of `g` (the list contains all visited nodes, so the
trivial path `[a]` relates `a` to itself). -/
inductive IsPath (g : DiGraph) (a : Nat) : List Nat → Nat → Prop
  | single : IsPath g a [a] a
  | snoc {p : List Nat} {u v : Nat} :
      IsPath g a p u → hasEdge g u v = true → IsPath g a (p ++ [v]) v

/-- `b` is reachable from `a` in `g` by a directed path. -/
def Reaches (g : DiGraph) (a b : Nat) : Prop :=
  ∃ p, IsPath g a p b

/-- Dijkstra frontier: not-yet-settled nodes with their current best
tentative distance and path, ordered by the push order of the entry that
produced the current value (mirroring the `(dist, counter)` heap order of
the networkx implementation once stale entries are dropped). -/
abbrev Frontier := List (Nat × Nat × List Nat)

/-- Current tentative entry for `w`, if any (the `seen` dictionary). -/
def frLookup (fr : Frontier) (w : Nat) : Option (Nat × List Nat) :=
  (fr.find? (fun e => e.1 == w)).map (fun e => e.2)

/-- Drop the entry for `w`. -/
def frRemove (fr : Frontier) (w : Nat) : Frontier :=
  fr.filter (fun e => ¬ e.1 == w)

/-- Pop order of the networkx fringe: the first entry holding the
minimal tentative distance. -/
def pickMin : Frontier → Option (Nat × Nat × List Nat)
  | [] => none
  | e :: es => some (es.foldl (fun best x => if x.2.1 < best.2.1 then x else best) e)

/-- Relax the out-edges of a node just settled at distance `d` with path
`p`: already-settled targets are skipped, unseen targets are pushed, and
a seen target is replaced only on a strictly smaller distance (the
`vu_dist < seen[u]` test of networkx — ties keep the earlier path). -/
def relax (sk : List Nat) (d : Nat) (p : List Nat) :
    List (Nat × Nat) → Frontier → Frontier
  | [], fr => fr
  | (w, wt) :: rest, fr =>
    if sk.contains w then relax sk d p rest fr
    else
      match frLookup fr w with
      | none => relax sk d p rest (fr ++ [(w, d + wt, p ++ [w])])
      | some (d', _) =>
        if d + wt < d' then
          relax sk d p rest (frRemove fr w ++ [(w, d + wt, p ++ [w])])
        else relax sk d p rest fr

/-- The Dijkstra main loop: settle the minimal frontier entry, relax its
out-edges, repeat.  `fuel` dominates the number of iterations the real
loop can make on the given graph. -/
def dloop (g : DiGraph) : Nat → Frontier → List (Nat × Nat × List Nat) →
    List (Nat × Nat × List Nat)
  | 0, _, settled => settled
  | fuel + 1, fr, settled =>
    match pickMin fr with
    | none => settled
    | some (v, d, p) =>
      dloop g fuel
        (relax (settled.map (fun e => e.1) ++ [v]) d p (succs g v) (frRemove fr v))
        (settled ++ [(v, d, p)])

/-- `nx.single_source_dijkstra` distance/path table from `src`: the
settled list, in settlement order. -/
def dijkstra (g : DiGraph) (src : Nat) : List (Nat × Nat × List Nat) :=
  dloop g (g.nodes.length + g.edges.length + 2) [(src, 0, [src])] []

/-- `nx.algorithms.dijkstra_path`: `NodeNotFound` for a missing source,
the settled path for a reached target, `NetworkXNoPath` otherwise. -/
def dijkstraPath (g : DiGraph) (a b : Nat) : Except PyErr (List Nat) :=
  if hasNode g a then
    match (dijkstra g a).find? (fun e => e.1 == b) with
    | some e => .ok e.2.2
    | none => .error .noPath
  else .error .nodeNotFound

/-- `[(u, v, self.graph[u][v]) for (u, v) in zip(path[0:], path[1:])]`. -/
def pathEdges (g : DiGraph) (p : List Nat) :
    List (Nat × Nat × Option EdgeData) :=
  (p.zip p.tail).map (fun uv => (uv.1, uv.2, lookupEdge g uv.1 uv.2))

/-- `QgepGraphManager.shortestPath`, graph part (after the dirty check):
`NetworkXNoPath` is caught and turned into `([], [])`; any other
exception propagates. -/
def shortestPathQ (g : DiGraph) (a b : Nat) :
    Except PyErr (List Nat × List (Nat × Nat × Option EdgeData)) :=
  match dijkstraPath g a b with
  | .ok path => .ok (path, pathEdges g path)
  | .error .noPath => .ok ([], [])
  | .error e => .error e

/-- Predecessor of the endpoint of a path: its next-to-last node. -/
def penult (l : List Nat) : Option Nat :=
  l.dropLast.getLast?

/-- `nx.bellman_ford_predecessor_and_distance(mg, src)`, predecessor
part.  In every networkx generation where this function exists (2.0
onwards, and this file's `graph.node[...]` use pins 2.0-2.3), the
returned `pred` maps each reached node to a *list* of predecessors,
with the source mapped to `[None]`.  With the non-negative weights of
this program the predecessor tree coincides with the Dijkstra one, so
the lists are built from the settled paths (one representative
predecessor per node; tie lists longer than one are not observable by
any claim, because the consumer below raises before reading any list's
contents). -/
def bfPred (g : DiGraph) (src : Nat) : List (Nat × List (Option Nat)) :=
  (dijkstra g src).map (fun e =>
    (e.1,
      match penult e.2.2 with
      | none => [none]
      | some v => [some v]))

/-- `my_graph = self.graph.reverse() if reverse else self.graph`. -/
def travGraph (g : DiGraph) (rev : Bool) : DiGraph :=
  if rev then reverse g else g

/-- `[(v, u, my_graph[v][u]) for (u, v) in pred.items() if v is not
None]`.  Each dict value `v` is a predecessor *list* (see `bfPred`), so
the `v is not None` filter keeps every item, and `my_graph[v]` then
indexes the graph's node dict with an unhashable list: the first item
of a non-empty `pred` already raises `TypeError`. -/
def treeEdges (_mg : DiGraph) (pred : List (Nat × List (Option Nat))) :
    Except PyErr (List (Nat × Nat × Option EdgeData)) :=
  match pred with
  | [] => .ok []
  | _ :: _ => .error .typeError

/-- `[my_graph.node[n] for n in set(list(pred.keys()) +
list(pred.values())) if n is not None]`.  The dict values are lists, so
`set(...)` hashes an unhashable list as soon as `pred` is non-empty and
raises `TypeError` (the edge comprehension above runs first and raises
earlier anyway). -/
def treeNodes (_mg : DiGraph) (pred : List (Nat × List (Option Nat))) :
    Except PyErr (List (Option NodeData)) :=
  match pred with
  | [] => .ok []
  | _ :: _ => .error .typeError

/-- `QgepGraphManager.getTree`, graph part (after the dirty check):
traverse `g` or its reverse with Bellman-Ford, then build the
predecessor-edge list (line 381 of the source, first) and the node
bundle list (line 382, second), propagating any exception. -/
def getTreeQ (g : DiGraph) (node : Nat) (rev : Bool) :
    Except PyErr (List (Option NodeData) × List (Nat × Nat × Option EdgeData)) :=
  if hasNode (travGraph g rev) node then
    match treeEdges (travGraph g rev) (bfPred (travGraph g rev) node) with
    | .error e => .error e
    | .ok es =>
      match treeNodes (travGraph g rev) (bfPred (travGraph g rev) node) with
      | .error e => .error e
      | .ok ns => .ok (ns, es)
  else .error .nodeNotFound

/-- Every distance/path entry of `l` carries a real path of `g` from
`src` to its node: the soundness invariant of the Dijkstra loop. -/
def PathInv (g : DiGraph) (src : Nat) (l : List (Nat × Nat × List Nat)) : Prop :=
  ∀ e ∈ l, IsPath g src e.2.2 e.1

/-- A record of the node source, with the fields `_addVertices` reads:
`feat.id()`, `feat['obj_id']`, `feat['type']`, and the result of
`feat.geometry().asPoint()` (`none` models the `AttributeError` the
accessor can raise). -/
structure NodeRecord where
  fid : Nat
  objId : String
  objType : String
  geom : Option (Int × Int)
deriving DecidableEq, Repr

/-- A record of the edge (reach) source, with the fields `_addEdges`
reads: `feat.id()`, `obj_id`, `type`, `from_obj_id`, `to_obj_id`, and
`length_calc`. -/
structure EdgeRecord where
  fid : Nat
  objId : String
  objType : String
  fromObjId : String
  toObjId : String
  length : Nat
deriving DecidableEq, Repr

/-- The node layer: its id and the records its data provider yields. -/
structure NodeLayer where
  lid : Int
  feats : List NodeRecord
deriving DecidableEq, Repr

/-- The reach layer: its id and the records its data provider yields. -/
structure ReachLayer where
  lid : Int
  feats : List EdgeRecord
deriving DecidableEq, Repr

/-- Python dict assignment on `self.vertexIds`. -/
def insertVid (l : List (String × Nat)) (k : String) (v : Nat) :
    List (String × Nat) :=
  if l.any (fun kv => kv.1 == k) then
    l.map (fun kv => if kv.1 == k then (k, v) else kv)
  else l ++ [(k, v)]

/-- `self.vertexIds[obj_id]` lookup. -/
def lookupVid (l : List (String × Nat)) (k : String) : Option Nat :=
  (l.find? (fun kv => kv.1 == k)).map (fun kv => kv.2)

/-- The loop of `QgepGraphManager._addVertices`.  The local variable
`vertex` is assigned inside a `try` whose `except AttributeError` branch
only passes, so after a failed geometry read the variable still holds
the previous record's point — and is unbound (`UnboundLocalError` at
`add_node`) when the very first record fails. -/
def addVerticesAux (g : DiGraph) (vids : List (String × Nat))
    (vertex : Option (Int × Int)) :
    List NodeRecord → Except PyErr (DiGraph × List (String × Nat))
  | [] => .ok (g, vids)
  | r :: rs =>
    let vertex := match r.geom with | some p => some p | none => vertex
    match vertex with
    | none => .error .unboundLocalError
    | some p =>
      addVerticesAux (addNode g r.fid ⟨p, r.objType, r.objId⟩)
        (insertVid vids r.objId r.fid) (some p) rs

/-- The loop of `QgepGraphManager._addEdges`: each iteration is wrapped
in `try/except KeyError`, so a record whose `from_obj_id` or `to_obj_id`
is absent from `self.vertexIds` is printed and skipped; otherwise the
edge is inserted with its weight and provenance attributes. -/
def addEdgesAux (vids : List (String × Nat)) (g : DiGraph) :
    List EdgeRecord → DiGraph
  | [] => g
  | r :: rs =>
    match lookupVid vids r.fromObjId, lookupVid vids r.toObjId with
    | some p1, some p2 =>
      addEdgesAux vids (addEdge g p1 p2 ⟨r.length, r.fid, r.objId, r.objType⟩) rs
    | _, _ => addEdgesAux vids g rs

/-- The mutable state of `QgepGraphManager` (profiling timings and the
unused `nodesOnStructure` dict are omitted). -/
structure QgepGraphManager where
  reachLayer : Option ReachLayer
  reachLayerId : Int
  nodeLayer : Option NodeLayer
  nodeLayerId : Int
  dirty : Bool
  graph : DiGraph
  vertexIds : List (String × Nat)
deriving DecidableEq, Repr

/-- `QgepGraphManager.createGraph`: reset `vertexIds` and the graph,
run `_addVertices` then `_addEdges`, and clear the dirty flag.
`self.nodeLayer.dataProvider()` (resp. the reach layer's) raises
`AttributeError` when the layer is still `None`. -/
def createGraph (gm : QgepGraphManager) : Except PyErr QgepGraphManager :=
  match gm.nodeLayer with
  | none => .error .attributeError
  | some nl =>
    match addVerticesAux emptyGraph [] none nl.feats with
    | .error e => .error e
    | .ok (g, vids) =>
      match gm.reachLayer with
      | none => .error .attributeError
      | some rl =>
        .ok { gm with
              graph := addEdgesAux vids g rl.feats
              vertexIds := vids
              dirty := false }

/-- `QgepGraphManager.setReachLayer`: assign the layer and its id, mark
dirty, and rebuild eagerly once both layers are assigned. -/
def setReachLayer (gm : QgepGraphManager) (l : Option ReachLayer) :
    Except PyErr QgepGraphManager :=
  let gm1 := { gm with
    reachLayer := l
    dirty := true
    reachLayerId := match l with | some rl => rl.lid | none => 0 }
  if gm1.nodeLayer.isSome && gm1.reachLayer.isSome then createGraph gm1
  else .ok gm1

/-- `QgepGraphManager.setNodeLayer`: assign the layer and its id, mark
dirty, and rebuild eagerly once both layers are assigned. -/
def setNodeLayer (gm : QgepGraphManager) (l : Option NodeLayer) :
    Except PyErr QgepGraphManager :=
  let gm1 := { gm with
    dirty := true
    nodeLayer := l
    nodeLayerId := match l with | some nl => nl.lid | none => 0 }
  if gm1.nodeLayer.isSome && gm1.reachLayer.isSome then createGraph gm1
  else .ok gm1

/-- The `if self.dirty: self.createGraph()` prologue of the query
methods. -/
def ensureFresh (gm : QgepGraphManager) : Except PyErr QgepGraphManager :=
  if gm.dirty then createGraph gm else .ok gm

/-- `QgepGraphManager.shortestPath`: lazy rebuild, then the Dijkstra
query; the method result is paired with the post-call manager state. -/
def shortestPath (gm : QgepGraphManager) (a b : Nat) :
    Except PyErr (QgepGraphManager ×
      (List Nat × List (Nat × Nat × Option EdgeData))) :=
  match ensureFresh gm with
  | .error e => .error e
  | .ok gm' =>
    match shortestPathQ gm'.graph a b with
    | .error e => .error e
    | .ok r => .ok (gm', r)

/-- `QgepGraphManager.getTree`: lazy rebuild, then the traversal-tree
query; the method result is paired with the post-call manager state. -/
def getTree (gm : QgepGraphManager) (n : Nat) (rv : Bool) :
    Except PyErr (QgepGraphManager ×
      (List (Option NodeData) × List (Nat × Nat × Option EdgeData))) :=
  match ensureFresh gm with
  | .error e => .error e
  | .ok gm' =>
    match getTreeQ gm'.graph n rv with
    | .error e => .error e
    | .ok r => .ok (gm', r)

/-- The manager operations that touch the dirty flag or the graph. -/
inductive MgrOp where
  | setReach (l : Option ReachLayer)
  | setNode (l : Option NodeLayer)
  | create
  | shortest (a b : Nat)
  | tree (n : Nat) (rv : Bool)
deriving DecidableEq, Repr

/-- The visible result of a manager operation. -/
inductive MgrOut where
  | unitOut
  | pathOut (r : List Nat × List (Nat × Nat × Option EdgeData))
  | treeOut (r : List (Option NodeData) × List (Nat × Nat × Option EdgeData))
deriving DecidableEq, Repr

/-- Run one manager operation, returning the post state and the result. -/
def runOp : MgrOp → QgepGraphManager → Except PyErr (QgepGraphManager × MgrOut)
  | .setReach l, gm => (setReachLayer gm l).map (fun g => (g, .unitOut))
  | .setNode l, gm => (setNodeLayer gm l).map (fun g => (g, .unitOut))
  | .create, gm => (createGraph gm).map (fun g => (g, .unitOut))
  | .shortest a b, gm => (shortestPath gm a b).map (fun r => (r.1, .pathOut r.2))
  | .tree n rv, gm => (getTree gm n rv).map (fun r => (r.1, .treeOut r.2))

/-! Concrete fixtures used by the counterexamples and witnesses. -/

/-- Node attribute bundle for a wastewater node with object id `s`. -/
def nd (s : String) : NodeData := ⟨(0, 0), "wastewater_node", s⟩

/-- Edge attribute bundle with weight `w` and feature id `i`. -/
def ed (w : Nat) (i : Nat) (s : String) : EdgeData := ⟨w, i, s, "reach"⟩

/-- The single-edge graph A(1) → B(2). -/
def g1 : DiGraph := ⟨[(1, nd "A"), (2, nd "B")], [(1, 2, ed 2 100 "eAB")]⟩

/-- Two isolated nodes 1 and 2: no path between them. -/
def g6 : DiGraph := ⟨[(1, nd "A"), (2, nd "B")], []⟩

/-- A clean (not dirty) manager holding `g6`. -/
def gm6 : QgepGraphManager :=
  ⟨some ⟨20, []⟩, 20, some ⟨10, []⟩, 10, false, g6, [("A", 1), ("B", 2)]⟩

/-- The tie graph of the spec: A(1)→B(2) weight 2, A(1)→C(3) weight 1,
C(3)→B(2) weight 1. -/
def g7 : DiGraph :=
  ⟨[(1, nd "A"), (2, nd "B"), (3, nd "C")],
   [(1, 2, ed 2 100 "eAB"), (1, 3, ed 1 101 "eAC"), (3, 2, ed 1 102 "eCB")]⟩

/-- A node record whose geometry accessor fails
(`feat.geometry().asPoint()` raises `AttributeError`). -/
def badNodeRec : NodeRecord := ⟨1, "N1", "wastewater_node", none⟩

/-- A manager whose node layer starts with a geometry-less record. -/
def gmBad : QgepGraphManager :=
  ⟨some ⟨20, []⟩, 20, some ⟨10, [badNodeRec]⟩, 10, true, emptyGraph, []⟩

/-- A dirty manager with two empty layers: its rebuild succeeds. -/
def gmW : QgepGraphManager :=
  ⟨some ⟨20, []⟩, 20, some ⟨10, []⟩, 10, true, emptyGraph, []⟩

/-- The state produced by rebuilding `gmW`. -/
def gmWR : QgepGraphManager :=
  ⟨some ⟨20, []⟩, 20, some ⟨10, []⟩, 10, false, emptyGraph, []⟩

/-- A manager with no layer assigned at all. -/
def gmNone : QgepGraphManager := ⟨none, 0, none, 0, true, emptyGraph, []⟩

/-- A manager whose node layer is already assigned (with a clean graph
left over from earlier) while the reach layer is still unset. -/
def gmNodeOnly : QgepGraphManager :=
  ⟨none, 0, some ⟨10, []⟩, 10, false, g6, [("A", 1)]⟩

/-- A feature whose `length_calc` field holds non-numeric text. -/
def fText : Feature := ⟨1, [("length_calc", .str "abc")]⟩

/-- A feature with internal id 7 and object id "X". -/
def fX : Feature := ⟨7, [("obj_id", .str "X")]⟩

/-- An object-id index resolving "A" and "B". -/
def vidsAB : List (String × Nat) := [("A", 1), ("B", 2)]

/-- An edge record between resolvable endpoints "A" and "B". -/
def recAB : EdgeRecord := ⟨50, "eAB", "reach", "A", "B", 3⟩

/-- An edge record whose `from_obj_id` does not resolve. -/
def recZB : EdgeRecord := ⟨51, "eZB", "reach", "Z", "B", 4⟩

/-! Theorems. -/

/-- The `attr` accessor never yields the raw `NULL` variant: it converts
it to `None`. -/
theorem attr_ne_null (f : Feature) (a : String) : attr f a ≠ some PyVal.null := by
  unfold attr
  cases h : fieldRaw f a with
  | none => simp
  | some v => cases v <;> simp

/-- Claim C2 (code bug): on a node source whose first record has a
failing geometry accessor, `_addVertices` raises `UnboundLocalError`
(the local `vertex` was never assigned) instead of adding the node, and
the whole `createGraph` build aborts. -/
theorem c2_first_record_geometry_crash :
    addVerticesAux emptyGraph [] none [badNodeRec] =
      .error PyErr.unboundLocalError
    ∧ createGraph gmBad = .error PyErr.unboundLocalError :=
  ⟨rfl, rfl⟩

/-- Claim C3 (counterexample): on a textual field value that is not a
valid number, `attrAsFloat` does not return the absence value — the
`ValueError` from `float(...)` propagates (only `TypeError` is caught). -/
theorem c3_counterexample :
    attrAsFloat fText "length_calc" = .error PyErr.valueError := rfl

/-- Claim C3 (amended): `attrAsFloat` returns the parsed number on
success and the absence value on a type failure (missing field or null
value), but a string value that does not parse as a number makes it
raise `ValueError`. -/
theorem c3_attrAsFloat_cases (f : Feature) (a : String) :
    (attr f a = none ∧ attrAsFloat f a = .ok none)
    ∨ (∃ n, attr f a = some (.num n) ∧ attrAsFloat f a = .ok (some n))
    ∨ (∃ s n, attr f a = some (.str s) ∧ parseNum s = some n
        ∧ attrAsFloat f a = .ok (some n))
    ∨ (∃ s, attr f a = some (.str s) ∧ parseNum s = none
        ∧ attrAsFloat f a = .error PyErr.valueError) := by
  cases h : attr f a with
  | none => exact Or.inl ⟨rfl, by simp [attrAsFloat, pyFloat, h]⟩
  | some v =>
    cases v with
    | null => exact absurd h (attr_ne_null f a)
    | num n =>
      exact Or.inr (Or.inl ⟨n, rfl, by simp [attrAsFloat, pyFloat, h]⟩)
    | str s =>
      cases hp : parseNum s with
      | some n =>
        exact Or.inr (Or.inr (Or.inl
          ⟨s, n, rfl, hp, by simp [attrAsFloat, pyFloat, h, hp]⟩))
      | none =>
        exact Or.inr (Or.inr (Or.inr
          ⟨s, rfl, hp, by simp [attrAsFloat, pyFloat, h, hp]⟩))

/-- Claim C4 (code bug): `asObjIdDict` returns the dictionary keyed by
the internal feature id (here 7), not the one keyed by the domain object
id ("X"), although the latter is built and available in the cache. -/
theorem c4_asObjIdDict_returns_id_keyed_dict :
    asObjIdDict (addFeature (emptyCache "obj_id") fX) = [(7, fX)]
    ∧ (addFeature (emptyCache "obj_id") fX).featuresByObjId =
        [(some (.str "X"), fX)]
    ∧ asObjIdDict (addFeature (emptyCache "obj_id") fX) =
        asDict (addFeature (emptyCache "obj_id") fX) :=
  ⟨rfl, rfl, rfl⟩

/-- Claim C7 (counterexample): on the tie graph A(1)→B(2) weight 2,
A(1)→C(3) weight 1, C(3)→B(2) weight 1, `shortestPath` returns the
direct path [1, 2], not [1, 3, 2]: both candidate paths have total
weight 2 and the Dijkstra implementation keeps the first-found one. -/
theorem c7_counterexample :
    (shortestPathQ g7 1 2).map Prod.fst = .ok [1, 2]
    ∧ ([1, 2] : List Nat) ≠ [1, 3, 2] :=
  ⟨rfl, by decide⟩

/-- Claim C7 (amended): on the tie graph, `shortestPath(A, B)` returns
the direct single-edge path [A, B] with its edge triple; B settles at
total distance 2, equal to the weight of the two-edge alternative, and
the tie keeps the first-discovered direct edge. -/
theorem c7_tie_keeps_direct_edge :
    shortestPathQ g7 1 2 = .ok ([1, 2], [(1, 2, some (ed 2 100 "eAB"))])
    ∧ (dijkstra g7 1).find? (fun e => e.1 == 2) = some (2, 2, [1, 2]) :=
  ⟨rfl, rfl⟩

/-- Claim C9 (confirmed): assigning a layer while the *other* layer is
still unset performs no rebuild — only the assigned layer, its id and
the dirty flag change, everything else (graph, object-id index, the
other layer) is untouched.  Each setter's conjunct only assumes that
the other layer is unset; the layer being (re)assigned may or may not
have been set before. -/
theorem c9_single_layer_no_rebuild (gm : QgepGraphManager)
    (nl : NodeLayer) (rl : ReachLayer) :
    (gm.reachLayer = none →
      setNodeLayer gm (some nl) =
        .ok { gm with nodeLayer := some nl, nodeLayerId := nl.lid, dirty := true })
    ∧ (gm.nodeLayer = none →
      setReachLayer gm (some rl) =
        .ok { gm with reachLayer := some rl, reachLayerId := rl.lid, dirty := true }) := by
  constructor
  · intro hr
    simp [setNodeLayer, hr]
  · intro hn
    simp [setReachLayer, hn]

/-- Witness for C9: reassigning the node layer on a manager whose node
layer is already set while the reach layer is unset (no rebuild, graph
kept), and assigning the reach layer on a fully unset manager. -/
theorem c9_single_layer_no_rebuild_witness :
    gmNodeOnly.reachLayer = none
    ∧ setNodeLayer gmNodeOnly (some ⟨11, []⟩) =
        .ok { gmNodeOnly with nodeLayer := some ⟨11, []⟩, nodeLayerId := 11, dirty := true }
    ∧ gmNone.nodeLayer = none
    ∧ setReachLayer gmNone (some ⟨20, []⟩) =
        .ok { gmNone with reachLayer := some ⟨20, []⟩, reachLayerId := 20, dirty := true } :=
  ⟨rfl, (c9_single_layer_no_rebuild gmNodeOnly ⟨11, []⟩ ⟨20, []⟩).1 rfl,
    rfl, (c9_single_layer_no_rebuild gmNone ⟨10, []⟩ ⟨20, []⟩).2 rfl⟩

/-- The keep-or-replace fold behind `pickMin` selects an element of the
candidate list. -/
theorem foldl_min_mem (es : Frontier) (b : Nat × Nat × List Nat) :
    es.foldl (fun best x => if x.2.1 < best.2.1 then x else best) b ∈ b :: es := by
  induction es generalizing b with
  | nil => simp
  | cons x xs ih =>
    simp only [List.foldl_cons]
    rcases List.mem_cons.mp (ih (if x.2.1 < b.2.1 then x else b)) with h1 | h1
    · rw [h1]
      split
      · simp
      · simp
    · exact List.mem_cons_of_mem _ (List.mem_cons_of_mem _ h1)

/-- `pickMin` returns an entry of the frontier. -/
theorem pickMin_mem {fr : Frontier} {x : Nat × Nat × List Nat}
    (h : pickMin fr = some x) : x ∈ fr := by
  cases fr with
  | nil => cases h
  | cons e es =>
    have h' : es.foldl (fun best y => if y.2.1 < best.2.1 then y else best) e = x := by
      simpa [pickMin] using h
    rw [← h']
    exact foldl_min_mem es e

/-- Removing a frontier entry yields a sublist. -/
theorem frRemove_mem {fr : Frontier} {w : Nat} {e : Nat × Nat × List Nat}
    (h : e ∈ frRemove fr w) : e ∈ fr :=
  (List.mem_filter.mp h).1

/-- One relaxation step either leaves the frontier alone, appends the
fresh entry, or replaces the previous entry for the target. -/
theorem relax_cons_cases (sk : List Nat) (d : Nat) (p : List Nat)
    (w wt : Nat) (xs : List (Nat × Nat)) (fr : Frontier) :
    relax sk d p ((w, wt) :: xs) fr = relax sk d p xs fr
    ∨ relax sk d p ((w, wt) :: xs) fr =
        relax sk d p xs (fr ++ [(w, d + wt, p ++ [w])])
    ∨ relax sk d p ((w, wt) :: xs) fr =
        relax sk d p xs (frRemove fr w ++ [(w, d + wt, p ++ [w])]) := by
  have hstep : relax sk d p ((w, wt) :: xs) fr =
      if sk.contains w then relax sk d p xs fr
      else
        match frLookup fr w with
        | none => relax sk d p xs (fr ++ [(w, d + wt, p ++ [w])])
        | some (d', _) =>
          if d + wt < d' then
            relax sk d p xs (frRemove fr w ++ [(w, d + wt, p ++ [w])])
          else relax sk d p xs fr := rfl
  rw [hstep]
  split
  · exact Or.inl rfl
  · cases frLookup fr w with
    | none => exact Or.inr (Or.inl rfl)
    | some dp =>
      obtain ⟨d', p'⟩ := dp
      by_cases hlt : d + wt < d'
      · exact Or.inr (Or.inr (by simp [hlt]))
      · exact Or.inl (by simp [hlt])

/-- Every entry of a relaxed frontier either was already there or is a
one-step extension `(w, d + wt, p ++ [w])` of the settled entry by an
out-edge `(w, wt)` of the processed list. -/
theorem relax_mem {sk : List Nat} {d : Nat} {p : List Nat}
    {es : List (Nat × Nat)} {fr : Frontier} {e : Nat × Nat × List Nat}
    (h : e ∈ relax sk d p es fr) :
    e ∈ fr ∨ ∃ w wt, (w, wt) ∈ es ∧ e = (w, d + wt, p ++ [w]) := by
  induction es generalizing fr with
  | nil => exact Or.inl h
  | cons x xs ih =>
    obtain ⟨w, wt⟩ := x
    rcases relax_cons_cases sk d p w wt xs fr with hc | hc | hc <;> rw [hc] at h
    · rcases ih h with h1 | ⟨w', wt', hm, he⟩
      · exact Or.inl h1
      · exact Or.inr ⟨w', wt', List.mem_cons_of_mem _ hm, he⟩
    · rcases ih h with h1 | ⟨w', wt', hm, he⟩
      · rcases List.mem_append.mp h1 with h2 | h2
        · exact Or.inl h2
        · refine Or.inr ⟨w, wt, List.mem_cons_self _ _, ?_⟩
          simpa using h2
      · exact Or.inr ⟨w', wt', List.mem_cons_of_mem _ hm, he⟩
    · rcases ih h with h1 | ⟨w', wt', hm, he⟩
      · rcases List.mem_append.mp h1 with h2 | h2
        · exact Or.inl (frRemove_mem h2)
        · refine Or.inr ⟨w, wt, List.mem_cons_self _ _, ?_⟩
          simpa using h2
      · exact Or.inr ⟨w', wt', List.mem_cons_of_mem _ hm, he⟩

/-- Every successor produced by `succs` is a real edge of the graph. -/
theorem succs_hasEdge {g : DiGraph} {v w wt : Nat}
    (h : (w, wt) ∈ succs g v) : hasEdge g v w = true := by
  rcases List.mem_filterMap.mp h with ⟨e, hm, he⟩
  split at he
  case isTrue h1 =>
    have h2 : e.2.1 = w := by
      injection he with he'
      exact congrArg Prod.fst he'
    apply List.any_eq_true.mpr
    refine ⟨e, hm, ?_⟩
    rw [Bool.and_eq_true]
    exact ⟨h1, by rw [h2]; simp⟩
  case isFalse => cases he

/-- Relaxation preserves the path-soundness invariant. -/
theorem relax_pathInv {g : DiGraph} {src v : Nat} (sk : List Nat) (d : Nat)
    (p : List Nat) (es : List (Nat × Nat)) (fr : Frontier)
    (hfr : PathInv g src fr) (hp : IsPath g src p v)
    (hes : ∀ x ∈ es, hasEdge g v x.1 = true) :
    PathInv g src (relax sk d p es fr) := by
  intro e he
  rcases relax_mem he with h | ⟨w, wt, hm, hnew⟩
  · exact hfr e h
  · rw [hnew]
    exact IsPath.snoc hp (hes (w, wt) hm)

/-- The Dijkstra loop preserves the path-soundness invariant of both the
frontier and the settled list. -/
theorem dloop_pathInv (g : DiGraph) (src : Nat) :
    ∀ (fuel : Nat) (fr : Frontier) (settled : List (Nat × Nat × List Nat)),
      PathInv g src fr → PathInv g src settled →
      PathInv g src (dloop g fuel fr settled) := by
  intro fuel
  induction fuel with
  | zero => intro fr s _ hs; exact hs
  | succ n ih =>
    intro fr s hf hs
    unfold dloop
    cases hpm : pickMin fr with
    | none => exact hs
    | some vdp =>
      obtain ⟨v, d, p⟩ := vdp
      have hv : IsPath g src p v := hf _ (pickMin_mem hpm)
      apply ih
      · refine relax_pathInv _ _ _ _ _ (fun e he => hf e (frRemove_mem he)) hv ?_
        intro x hx
        obtain ⟨w, wt⟩ := x
        exact succs_hasEdge hx
      · intro e he
        rcases List.mem_append.mp he with h1 | h1
        · exact hs e h1
        · have : e = (v, d, p) := by simpa using h1
          rw [this]
          exact hv

/-- Soundness of the Dijkstra table: every settled entry carries a real
path of the graph from the source to its node. -/
theorem dijkstra_sound {g : DiGraph} {src : Nat} {e : Nat × Nat × List Nat}
    (h : e ∈ dijkstra g src) : IsPath g src e.2.2 e.1 := by
  refine dloop_pathInv g src _ _ _ ?_ ?_ e h
  · intro x hx
    have : x = (src, 0, [src]) := by simpa using hx
    rw [this]
    exact IsPath.single
  · intro x hx
    cases hx

/-- A path ends at its claimed endpoint. -/
theorem isPath_last {g : DiGraph} {a : Nat} {p : List Nat} {b : Nat}
    (h : IsPath g a p b) : p.getLast? = some b := by
  induction h with
  | single => rfl
  | snoc _ _ _ => simp [List.getLast?_concat]

/-- The next-to-last node of a path is joined to the endpoint by an
edge of the graph. -/
theorem isPath_penult {g : DiGraph} {a : Nat} {p : List Nat} {b v : Nat}
    (h : IsPath g a p b) (hpe : penult p = some v) :
    hasEdge g v b = true := by
  cases h with
  | single => simp [penult] at hpe
  | snoc hp he =>
    rename_i q u
    have hq : penult (q ++ [b]) = q.getLast? := by
      simp [penult, List.dropLast_concat]
    rw [hq, isPath_last hp] at hpe
    injection hpe with hv
    rw [← hv]
    exact he

/-- An edge of the reversed graph is the flipped edge of the original. -/
theorem hasEdge_reverse (g : DiGraph) (u v : Nat) :
    hasEdge (reverse g) v u = hasEdge g u v := by
  simp only [hasEdge, reverse, List.any_map]
  congr 1
  funext e
  simp only [Function.comp]
  exact Bool.and_comm _ _

/-- There is no path between the two isolated nodes of `g6`. -/
theorem g6_not_reaches : ¬ Reaches g6 1 2 := by
  rintro ⟨p, hp⟩
  cases hp with
  | snoc _ he => simp [hasEdge, g6] at he

/-- Claim C6 (confirmed): on a clean manager, for two nodes present in
the graph with no directed path between them, `shortestPath` returns
`([], [])` normally — the `NetworkXNoPath` exception is caught. -/
theorem c6_no_path (gm : QgepGraphManager) (a b : Nat)
    (hd : gm.dirty = false) (ha : hasNode gm.graph a = true)
    (hb : hasNode gm.graph b = true) (hnp : ¬ Reaches gm.graph a b) :
    shortestPath gm a b = .ok (gm, ([], [])) := by
  have hfind : (dijkstra gm.graph a).find? (fun e => e.1 == b) = none := by
    cases hf : (dijkstra gm.graph a).find? (fun e => e.1 == b) with
    | none => rfl
    | some e =>
      exfalso
      have hmem := List.mem_of_find?_eq_some hf
      have hbeq : e.1 = b := by simpa using List.find?_some hf
      exact hnp ⟨e.2.2, hbeq ▸ dijkstra_sound hmem⟩
  simp [shortestPath, ensureFresh, hd, shortestPathQ, dijkstraPath, ha, hfind]

/-- Witness for C6 at the concrete two-isolated-nodes manager. -/
theorem c6_no_path_witness :
    gm6.dirty = false ∧ hasNode gm6.graph 1 = true
    ∧ hasNode gm6.graph 2 = true ∧ ¬ Reaches gm6.graph 1 2
    ∧ shortestPath gm6 1 2 = .ok (gm6, ([], [])) :=
  ⟨rfl, rfl, rfl, g6_not_reaches,
    c6_no_path gm6 1 2 rfl rfl rfl g6_not_reaches⟩

/-- The Dijkstra loop only ever appends to the settled list. -/
theorem dloop_prefix (g : DiGraph) :
    ∀ (fuel : Nat) (fr : Frontier) (s : List (Nat × Nat × List Nat)),
      ∃ t, dloop g fuel fr s = s ++ t := by
  intro fuel
  induction fuel with
  | zero => intro fr s; exact ⟨[], by simp [dloop]⟩
  | succ n ih =>
    intro fr s
    unfold dloop
    cases hpm : pickMin fr with
    | none => exact ⟨[], by simp⟩
    | some vdp =>
      obtain ⟨v, d, p⟩ := vdp
      obtain ⟨t, ht⟩ := ih
        (relax (s.map (fun e => e.1) ++ [v]) d p (succs g v) (frRemove fr v))
        (s ++ [(v, d, p)])
      refine ⟨(v, d, p) :: t, ?_⟩
      show dloop g n
          (relax (s.map (fun e => e.1) ++ [v]) d p (succs g v) (frRemove fr v))
          (s ++ [(v, d, p)]) = s ++ (v, d, p) :: t
      rw [ht]
      simp

/-- The settled table of the embedded Dijkstra is never empty: the
source itself is settled by the first iteration. -/
theorem dijkstra_ne_nil (g : DiGraph) (src : Nat) : dijkstra g src ≠ [] := by
  have h1 : dijkstra g src =
      dloop g (g.nodes.length + g.edges.length + 1)
        (relax [src] 0 [src] (succs g src) (frRemove [(src, 0, [src])] src))
        [(src, 0, [src])] := rfl
  rw [h1]
  obtain ⟨t, ht⟩ := dloop_prefix g (g.nodes.length + g.edges.length + 1)
    (relax [src] 0 [src] (succs g src) (frRemove [(src, 0, [src])] src))
    [(src, 0, [src])]
  rw [ht]
  simp

/-- Consequently the Bellman-Ford predecessor dict is never empty: it
always holds at least the source (mapped to `[None]`). -/
theorem bfPred_ne_nil (g : DiGraph) (src : Nat) : bfPred g src ≠ [] := by
  unfold bfPred
  intro h
  exact dijkstra_ne_nil g src (List.map_eq_nil_iff.mp h)

/-- Claim C1 (code bug): for every graph and every start node present
in the traversal graph, `getTree` raises `TypeError` instead of
returning an edge list: the networkx 2.x predecessor dict maps nodes to
predecessor *lists*, the `v is not None` filter keeps them, and
`my_graph[v][u]` indexes the graph with an unhashable list.  No triple
is ever returned, so the claimed original-direction orientation of the
returned edges is never exhibited, contradicting the claim and the
method's own docstring (":return: A list of edges"). -/
theorem c1_getTree_always_raises (g : DiGraph) (node : Nat) (rv : Bool)
    (h : hasNode (travGraph g rv) node = true) :
    getTreeQ g node rv = .error PyErr.typeError := by
  cases hp : bfPred (travGraph g rv) node with
  | nil => exact absurd hp (bfPred_ne_nil _ _)
  | cons x xs => simp [getTreeQ, h, treeEdges, hp]

/-- Witness for C1: on the single-edge graph A(1)→B(2), the upstream
query `getTree(B, reverse=True)` of the spec example raises `TypeError`
(and so does the downstream query from A). -/
theorem c1_getTree_always_raises_witness :
    hasNode (travGraph g1 true) 2 = true
    ∧ getTreeQ g1 2 true = .error PyErr.typeError
    ∧ getTreeQ g1 1 false = .error PyErr.typeError :=
  ⟨rfl, c1_getTree_always_raises g1 2 true rfl,
    c1_getTree_always_raises g1 1 false rfl⟩


/-- `add_edge` makes its own edge present. -/
theorem hasEdge_addEdge_self (g : DiGraph) (a b : Nat) (d : EdgeData) :
    hasEdge (addEdge g a b d) a b = true := by
  unfold addEdge hasEdge
  split
  case isTrue hex =>
    rcases List.any_eq_true.mp hex with ⟨e, hme, hpe⟩
    apply List.any_eq_true.mpr
    refine ⟨(a, b, d), List.mem_map.mpr ⟨e, hme, by simp [hpe]⟩, by simp⟩
  case isFalse =>
    apply List.any_eq_true.mpr
    exact ⟨(a, b, d), List.mem_append_right _ (List.mem_singleton.mpr rfl), by simp⟩

/-- `add_edge` keeps every edge that was already present. -/
theorem hasEdge_addEdge_mono (g : DiGraph) (a b u v : Nat) (d : EdgeData)
    (h : hasEdge g u v = true) : hasEdge (addEdge g a b d) u v = true := by
  rcases List.any_eq_true.mp h with ⟨e, hme, hpe⟩
  obtain ⟨heu', hev'⟩ : e.1 = u ∧ e.2.1 = v := by simpa using hpe
  unfold addEdge hasEdge
  split
  case isTrue hex =>
    apply List.any_eq_true.mpr
    by_cases hc : (e.1 == a && e.2.1 == b) = true
    · obtain ⟨hea, heb⟩ : e.1 = a ∧ e.2.1 = b := by simpa using hc
      have hau : a = u := hea.symm.trans heu'
      have hbv : b = v := heb.symm.trans hev'
      refine ⟨(a, b, d), List.mem_map.mpr ⟨e, hme, by simp [hc]⟩, ?_⟩
      simp [hau, hbv]
    · refine ⟨e, List.mem_map.mpr ⟨e, hme, ?_⟩, hpe⟩
      simp [hc]
  case isFalse =>
    apply List.any_eq_true.mpr
    exact ⟨e, List.mem_append_left _ hme, hpe⟩

/-- The `_addEdges` loop keeps every edge that was already present. -/
theorem hasEdge_addEdgesAux (vids : List (String × Nat))
    (rs : List EdgeRecord) (g : DiGraph) (u v : Nat)
    (h : hasEdge g u v = true) :
    hasEdge (addEdgesAux vids g rs) u v = true := by
  induction rs generalizing g with
  | nil => exact h
  | cons r rs ih =>
    cases hA : lookupVid vids r.fromObjId with
    | none =>
      cases hB : lookupVid vids r.toObjId <;>
        simp only [addEdgesAux, hA, hB] <;> exact ih g h
    | some p1 =>
      cases hB : lookupVid vids r.toObjId with
      | none => simp only [addEdgesAux, hA, hB]; exact ih g h
      | some p2 =>
        simp only [addEdgesAux, hA, hB]
        exact ih _ (hasEdge_addEdge_mono g p1 p2 u v _ h)

/-- A record whose endpoints both resolve leaves its edge in the final
graph of the `_addEdges` loop. -/
theorem addEdgesAux_mem_hasEdge (vids : List (String × Nat))
    (recs : List EdgeRecord) (g : DiGraph) (rec : EdgeRecord) (p1 p2 : Nat)
    (hm : rec ∈ recs) (hf : lookupVid vids rec.fromObjId = some p1)
    (ht : lookupVid vids rec.toObjId = some p2) :
    hasEdge (addEdgesAux vids g recs) p1 p2 = true := by
  induction recs generalizing g with
  | nil => cases hm
  | cons r rs ih =>
    rcases List.mem_cons.mp hm with heq | hm'
    · subst heq
      simp only [addEdgesAux, hf, ht]
      exact hasEdge_addEdgesAux vids rs _ p1 p2
        (hasEdge_addEdge_self g p1 p2 _)
    · cases hA : lookupVid vids r.fromObjId with
      | none =>
        cases hB : lookupVid vids r.toObjId <;>
          simp only [addEdgesAux, hA, hB] <;> exact ih g hm'
      | some q1 =>
        cases hB : lookupVid vids r.toObjId with
        | none => simp only [addEdgesAux, hA, hB]; exact ih g hm'
        | some q2 => simp only [addEdgesAux, hA, hB]; exact ih _ hm'

/-- Claim C5 (confirmed): an edge record with an unresolvable endpoint
is skipped without effect and without raising (the `KeyError` is caught
and the loop continues), while every record whose endpoints both
resolve still contributes its edge to the built graph. -/
theorem c5_unresolvable_endpoint_skipped (vids : List (String × Nat))
    (g : DiGraph) (r : EdgeRecord) (rs : List EdgeRecord)
    (recs : List EdgeRecord) (rec : EdgeRecord) (p1 p2 : Nat)
    (h1 : lookupVid vids r.fromObjId = none ∨ lookupVid vids r.toObjId = none)
    (hm : rec ∈ recs) (hf : lookupVid vids rec.fromObjId = some p1)
    (ht : lookupVid vids rec.toObjId = some p2) :
    addEdgesAux vids g (r :: rs) = addEdgesAux vids g rs
    ∧ hasEdge (addEdgesAux vids g recs) p1 p2 = true := by
  constructor
  · rcases h1 with h1 | h1
    · cases hB : lookupVid vids r.toObjId <;> simp only [addEdgesAux, h1, hB]
    · cases hA : lookupVid vids r.fromObjId <;> simp only [addEdgesAux, hA, h1]
  · exact addEdgesAux_mem_hasEdge vids recs g rec p1 p2 hm hf ht

/-- Witness for C5 at a concrete index and record list. -/
theorem c5_unresolvable_endpoint_skipped_witness :
    lookupVid vidsAB recZB.fromObjId = none
    ∧ recAB ∈ [recAB]
    ∧ lookupVid vidsAB recAB.fromObjId = some 1
    ∧ lookupVid vidsAB recAB.toObjId = some 2
    ∧ (addEdgesAux vidsAB emptyGraph (recZB :: [recAB]) =
         addEdgesAux vidsAB emptyGraph [recAB]
       ∧ hasEdge (addEdgesAux vidsAB emptyGraph [recAB]) 1 2 = true) :=
  ⟨rfl, List.mem_singleton.mpr rfl, rfl, rfl,
    c5_unresolvable_endpoint_skipped vidsAB emptyGraph recZB [recAB]
      [recAB] recAB 1 2 (Or.inl rfl) (List.mem_singleton.mpr rfl) rfl rfl⟩

/-- A completed `createGraph` always leaves the dirty flag cleared. -/
theorem createGraph_dirty {gm gm' : QgepGraphManager}
    (h : createGraph gm = .ok gm') : gm'.dirty = false := by
  unfold createGraph at h
  split at h
  · cases h
  · split at h
    · cases h
    · split at h
      · cases h
      · injection h with h'
        rw [← h']

/-- Claim C8 (confirmed): the dirty flag is cleared only by a completed
rebuild, and a query issued on a dirty manager first rebuilds
synchronously and then runs on the rebuilt graph (whose dirty flag is
cleared).  The last conjunct states the "only by" direction: whichever
manager operation turns the flag from set to cleared, the resulting
state is the output of a completed `createGraph`. -/
theorem c8_dirty_flag_discipline (gm gmR gm1 gm1' : QgepGraphManager)
    (op : MgrOp) (o : MgrOut) (a b n : Nat) (rv : Bool)
    (hd : gm.dirty = true) (hcg : createGraph gm = .ok gmR)
    (hrun : runOp op gm1 = .ok (gm1', o)) (h4 : gm1.dirty = true)
    (h5 : gm1'.dirty = false) :
    gmR.dirty = false
    ∧ shortestPath gm a b = (shortestPathQ gmR.graph a b).map (fun r => (gmR, r))
    ∧ getTree gm n rv = (getTreeQ gmR.graph n rv).map (fun r => (gmR, r))
    ∧ ∃ gmq, createGraph gmq = .ok gm1' := by
  refine ⟨createGraph_dirty hcg, ?_, ?_, ?_⟩
  · cases hq : shortestPathQ gmR.graph a b <;>
      simp [shortestPath, ensureFresh, hd, hcg, hq, Except.map]
  · cases hq : getTreeQ gmR.graph n rv <;>
      simp [getTree, ensureFresh, hd, hcg, hq, Except.map]
  · cases op with
    | setReach l =>
      cases hs : setReachLayer gm1 l with
      | error e => simp only [runOp, hs, Except.map] at hrun; cases hrun
      | ok gm2 =>
        simp only [runOp, hs, Except.map] at hrun
        injection hrun with h'
        have hg : gm2 = gm1' := congrArg Prod.fst h'
        simp only [setReachLayer] at hs
        split at hs
        · exact ⟨_, hs.trans (congrArg Except.ok hg)⟩
        · exfalso
          injection hs with h''
          rw [hg] at h''
          rw [← h''] at h5
          simp at h5
    | setNode l =>
      cases hs : setNodeLayer gm1 l with
      | error e => simp only [runOp, hs, Except.map] at hrun; cases hrun
      | ok gm2 =>
        simp only [runOp, hs, Except.map] at hrun
        injection hrun with h'
        have hg : gm2 = gm1' := congrArg Prod.fst h'
        simp only [setNodeLayer] at hs
        split at hs
        · exact ⟨_, hs.trans (congrArg Except.ok hg)⟩
        · exfalso
          injection hs with h''
          rw [hg] at h''
          rw [← h''] at h5
          simp at h5
    | create =>
      cases hs : createGraph gm1 with
      | error e => simp only [runOp, hs, Except.map] at hrun; cases hrun
      | ok gm2 =>
        simp only [runOp, hs, Except.map] at hrun
        injection hrun with h'
        have hg : gm2 = gm1' := congrArg Prod.fst h'
        exact ⟨gm1, hs.trans (congrArg Except.ok hg)⟩
    | shortest a' b' =>
      cases hs : createGraph gm1 with
      | error e =>
        simp only [runOp, shortestPath, ensureFresh, h4, if_true, hs,
          Except.map] at hrun
        cases hrun
      | ok gm2 =>
        simp only [runOp, shortestPath, ensureFresh, h4, if_true, hs] at hrun
        cases hq : shortestPathQ gm2.graph a' b' with
        | error e => simp only [hq, Except.map] at hrun; cases hrun
        | ok r =>
          simp only [hq, Except.map] at hrun
          injection hrun with h'
          have hg : gm2 = gm1' := congrArg Prod.fst h'
          exact ⟨gm1, hs.trans (congrArg Except.ok hg)⟩
    | tree n' rv' =>
      cases hs : createGraph gm1 with
      | error e =>
        simp only [runOp, getTree, ensureFresh, h4, if_true, hs,
          Except.map] at hrun
        cases hrun
      | ok gm2 =>
        simp only [runOp, getTree, ensureFresh, h4, if_true, hs] at hrun
        cases hq : getTreeQ gm2.graph n' rv' with
        | error e => simp only [hq, Except.map] at hrun; cases hrun
        | ok r =>
          simp only [hq, Except.map] at hrun
          injection hrun with h'
          have hg : gm2 = gm1' := congrArg Prod.fst h'
          exact ⟨gm1, hs.trans (congrArg Except.ok hg)⟩

/-- Witness for C8: a dirty manager with both layers assigned, rebuilt
by the `create` operation, which flips the flag from set to cleared. -/
theorem c8_dirty_flag_discipline_witness :
    gmW.dirty = true ∧ createGraph gmW = .ok gmWR
    ∧ runOp .create gmW = .ok (gmWR, .unitOut) ∧ gmWR.dirty = false
    ∧ (gmWR.dirty = false
       ∧ shortestPath gmW 1 2 =
           (shortestPathQ gmWR.graph 1 2).map (fun r => (gmWR, r))
       ∧ getTree gmW 1 true =
           (getTreeQ gmWR.graph 1 true).map (fun r => (gmWR, r))
       ∧ ∃ gmq, createGraph gmq = .ok gmWR) :=
  ⟨rfl, rfl, rfl, rfl,
    c8_dirty_flag_discipline gmW gmWR gmW gmWR .create .unitOut 1 2 1 true
      rfl rfl rfl rfl rfl⟩

end QgepNetwork
